import Mathlib

/-!
Verification of the JCLRNT single-view hyperbolic training module
(src/models/sv-hyper.py) against its natural-language specification.

The Python source is shallowly embedded: tensors become lists of reals
(a matrix is a list of rows), float arithmetic becomes exact real
arithmetic (with Lean's total-division convention x / 0 = 0 standing in
for the float NaN/inf produced by a zero denominator), the external
Sinkhorn transport cost (geomloss.SamplesLoss) becomes an abstract
scalar-valued function parameter, and the parts of the program whose
behaviour is about Python-level control (checkpoint file selection,
resume precedence, the epoch loop guard, call-arity resolution,
attribute resolution) are embedded as executable functions over
strings and naturals.
-/

/- ------------------------------------------------------------------
Checkpoint naming, selection and resume (train, lines 293-303, 333-337)
------------------------------------------------------------------- -/

/-- Lexicographic comparison of two character lists by code point, the
order Python uses to compare strings (so `sorted(checkpoints)` at line
296 sorts by this order). -/
def pyLexLt : List Char → List Char → Bool
  | [], [] => false
  | [], _ :: _ => true
  | _ :: _, [] => false
  | a :: as, b :: bs => if a < b then true else if b < a then false else pyLexLt as bs

/-- Checkpoint file name, line 337 of the source:
`"_".join([model_name, f'{epoch}.pt'])`, i.e. `{model_name}_{epoch}.pt`
with the epoch written in decimal without padding. -/
def checkpointName (model_name : String) (epoch : Nat) : String :=
  model_name ++ "_" ++ toString epoch ++ ".pt"

/-- The checkpoint file the resume step picks, line 296 of the source:
`sorted(checkpoints)[-1]`, i.e. the lexicographically greatest file
name (Python string order). -/
def selectLatest : List String → Option String
  | [] => none
  | f :: fs => some (fs.foldl (fun acc g => if pyLexLt acc.data g.data then g else acc) f)

/-- A saved checkpoint: its file name and the `epoch` field stored in
the serialized record (lines 333-337 save `{'epoch': epoch, ...}`). -/
structure SavedCkpt where
  file : String
  epoch : Nat
deriving DecidableEq

/-- The record `torch.load` returns for the file `sorted(checkpoints)[-1]`
(lines 296-297): the saved checkpoint whose file name is
lexicographically greatest. -/
def loadLatest : List SavedCkpt → Option SavedCkpt
  | [] => none
  | c :: cs => some (cs.foldl (fun acc d => if pyLexLt acc.file.data d.file.data then d else acc) c)

/-- Resume step of `train`, lines 295-303: if `not retrain` and the
checkpoint list is nonempty, load the lexicographically latest
checkpoint and set `current_epoch = checkpoint['epoch'] + 1`
(no fresh weight initialization); otherwise apply `utils.weight_init`
and set `current_epoch = 1`.  The Bool component records whether fresh
initialization was performed. -/
def resumeState (retrain : Bool) (ckpts : List SavedCkpt) : Bool × Nat :=
  if !retrain && !ckpts.isEmpty then
    match loadLatest ckpts with
    | some c => (false, c.epoch + 1)
    | none => (true, 1)
  else (true, 1)

/-- The list of epoch numbers the training loop actually runs (each of
which is also checkpointed at its end, line 333): lines 305-309 guard
the whole loop with `if current_epoch < num_epochs` (strict) and then
iterate `for epoch in range(current_epoch, num_epochs + 1)`. -/
def epochsRun (current_epoch num_epochs : Nat) : List Nat :=
  if current_epoch < num_epochs then
    List.range' current_epoch (num_epochs + 1 - current_epoch)
  else []

/- ------------------------------------------------------------------
Positional-call resolution for the loss calls (lines 317-324)
------------------------------------------------------------------- -/

/-- Signature of a Python function: number of declared parameters and
how many of them carry default values.  A call with `nargs` positional
arguments binds iff nparams - ndefaults <= nargs <= nparams; otherwise
Python raises TypeError before the body runs. -/
structure PySig where
  nparams : Nat
  ndefaults : Nat
deriving DecidableEq

/-- Signature of `node_node_loss` (line 22): parameters
`(node_rep1, node_rep2)`, no defaults. -/
def node_node_loss_sig : PySig := ⟨2, 0⟩

/-- Signature of `seq_seq_loss` (line 27): parameters
`(seq_rep1, seq_rep2)`, no defaults. -/
def seq_seq_loss_sig : PySig := ⟨2, 0⟩

/-- Signature of `node_seq_loss` (line 32): parameters
`(node_rep, seq_rep, sequences)`, no defaults. -/
def node_seq_loss_sig : PySig := ⟨3, 0⟩

/-- Signature of `weighted_ns_loss` (line 41): parameters
`(node_rep, seq_rep, weights)`, no defaults. -/
def weighted_ns_loss_sig : PySig := ⟨3, 0⟩

/-- Outcome of a positional call: ok when the argument count binds to
the signature, TypeError otherwise. -/
def callCheck (f : PySig) (fname : String) (nargs : Nat) : Except String Unit :=
  if f.nparams - f.ndefaults ≤ nargs ∧ nargs ≤ f.nparams then Except.ok ()
  else Except.error ("TypeError: " ++ fname)

/-- The sequence of loss-function calls one batch of the training loop
makes, lines 317-324 of the source, each with the number of positional
arguments actually written there: `node_node_loss(node_rep1, node_rep2,
measure)` (3 args), `seq_seq_loss(seq_rep1, seq_rep2, measure)` (3),
then depending on `is_weighted` either two `weighted_ns_loss(..., w_batch,
measure)` calls (4 args each) or two `node_seq_loss(..., data_batch,
measure)` calls (4 args each). -/
def trainBatchLossCalls (is_weighted : Bool) : Except String Unit := do
  let _ ← callCheck node_node_loss_sig "node_node_loss" 3
  let _ ← callCheck seq_seq_loss_sig "seq_seq_loss" 3
  if is_weighted then
    let _ ← callCheck weighted_ns_loss_sig "weighted_ns_loss" 4
    let _ ← callCheck weighted_ns_loss_sig "weighted_ns_loss" 4
  else
    let _ ← callCheck node_seq_loss_sig "node_seq_loss" 4
    let _ ← callCheck node_seq_loss_sig "node_seq_loss" 4

/- ------------------------------------------------------------------
Attribute resolution for UpdatedSingleViewModel (lines 233-269)
------------------------------------------------------------------- -/

/-- The instance attributes `UpdatedSingleViewModel.__init__` assigns
(lines 236-241): vocab_size, edge_index, node_embedding, graph_encoder,
seq_encoder, mode.  Note `self.padding` is never assigned (the plain
`SingleViewModel.__init__` assigns it at line 200; the updated class
does not). -/
def updatedInitAttrs : List String :=
  ["vocab_size", "edge_index", "node_embedding", "graph_encoder", "seq_encoder", "mode"]

/-- Reading one attribute of the object: ok when `__init__` assigned
it, AttributeError otherwise. -/
def readAttr (attrs : List String) (name : String) : Except String Unit :=
  if name ∈ attrs then Except.ok () else Except.error ("AttributeError: " ++ name)

/-- Reading a list of attributes in order, stopping at the first
missing one, as Python attribute resolution does. -/
def readAttrs (attrs : List String) : List String → Except String Unit
  | [] => Except.ok ()
  | a :: rest =>
    match readAttr attrs a with
    | Except.error e => Except.error e
    | Except.ok _ => readAttrs attrs rest

/-- The self-attribute reads `UpdatedSingleViewModel.encode_sequence`
performs, in evaluation order (lines 249-262): `self.mode` (line 250);
in the `'p'` branch `self.node_embedding` then `self.padding` (line
251); in the other branch the attributes `encode_graph` reads
(`self.node_embedding`, `self.edge_index`, `self.graph_encoder`, lines
244-246) then `self.padding` (line 254); afterwards `self.vocab_size`
(lines 256-257) and `self.seq_encoder` (line 262). -/
def updatedEncodeSequenceReads (mode : String) : List String :=
  if mode = "p" then
    ["mode", "node_embedding", "padding", "vocab_size", "seq_encoder"]
  else
    ["mode", "node_embedding", "edge_index", "graph_encoder", "padding", "vocab_size",
      "seq_encoder"]

/-- The self-attribute reads of `UpdatedSingleViewModel.encode_graph`
(lines 243-247). -/
def updatedEncodeGraphReads : List String :=
  ["node_embedding", "edge_index", "graph_encoder"]

/-- Attribute-resolution outcome of `UpdatedSingleViewModel.encode_sequence`. -/
def updated_encode_sequence (mode : String) : Except String Unit :=
  readAttrs updatedInitAttrs (updatedEncodeSequenceReads mode)

/-- Attribute-resolution outcome of `UpdatedSingleViewModel.forward`
(lines 266-269): it runs `encode_graph` and then `encode_sequence`. -/
def updated_forward (mode : String) : Except String Unit :=
  match readAttrs updatedInitAttrs updatedEncodeGraphReads with
  | Except.error e => Except.error e
  | Except.ok _ => updated_encode_sequence mode

/- ------------------------------------------------------------------
Claim theorems on the discrete part
------------------------------------------------------------------- -/

/-- C1 (code bug witness): every per-batch loss-function application in
`train` (lines 317-324) fails to bind: the active definitions of
`node_node_loss`, `seq_seq_loss`, `node_seq_loss` and
`weighted_ns_loss` (lines 22, 27, 32, 41) take 2, 2, 3 and 3 parameters
with no defaults, yet `train` passes one extra `measure` argument to
each, so in both the weighted and the unweighted configuration the very
first loss call raises TypeError — contradicting the claim that each of
these applications evaluates to a value. -/
theorem c1_train_loss_calls_type_error :
    trainBatchLossCalls true = Except.error "TypeError: node_node_loss" ∧
    trainBatchLossCalls false = Except.error "TypeError: node_node_loss" :=
  ⟨rfl, rfl⟩

/-- C2 (code bug witness): with checkpoints for epochs 10 and 2 of the
same run key, the resume step's `sorted(checkpoints)[-1]` (line 296)
selects the epoch-2 file, because `"sv_0.5_100_p_2.pt"` is
lexicographically greater than `"sv_0.5_100_p_10.pt"` — not the
numerically largest epoch, contradicting the claim for epoch numbers of
different digit counts. -/
theorem c2_latest_checkpoint_lexicographic :
    checkpointName "sv_0.5_100_p" 10 = "sv_0.5_100_p_10.pt" ∧
    checkpointName "sv_0.5_100_p" 2 = "sv_0.5_100_p_2.pt" ∧
    selectLatest ["sv_0.5_100_p_10.pt", "sv_0.5_100_p_2.pt"] = some "sv_0.5_100_p_2.pt" := by
  decide

/-- C3: resume precedence (lines 295-303).  With `retrain = true` the
checkpoint branch is skipped regardless of existing checkpoints:
weights are freshly initialized and training starts at epoch 1.  With
`retrain = false` and a checkpoint present, the loaded checkpoint's
`epoch` field `e` yields `current_epoch = e + 1` with no fresh
initialization. -/
theorem c3_resume_semantics (ckpts : List SavedCkpt) (c : SavedCkpt) :
    (ckpts ≠ [] → resumeState true ckpts = (true, 1)) ∧
    (loadLatest ckpts = some c → resumeState false ckpts = (false, c.epoch + 1)) := by
  constructor
  · intro _
    simp [resumeState]
  · intro h
    have hne : ckpts ≠ [] := by
      intro he
      rw [he] at h
      exact Option.noConfusion h
    cases ckpts with
    | nil => exact absurd rfl hne
    | cons a as =>
      simp only [resumeState, List.isEmpty_cons, Bool.not_false, Bool.not_true,
        Bool.true_and, h, if_true]

/-- Witness for C3 at a concrete input: one checkpoint saved at epoch 5
resumes at epoch 6 when `retrain = false`, and is ignored (fresh start
at epoch 1) when `retrain = true`. -/
theorem c3_resume_semantics_witness :
    resumeState true [⟨"sv_0.5_100_p_5.pt", 5⟩] = (true, 1) ∧
    resumeState false [⟨"sv_0.5_100_p_5.pt", 5⟩] = (false, 6) :=
  ⟨(c3_resume_semantics [⟨"sv_0.5_100_p_5.pt", 5⟩] ⟨"sv_0.5_100_p_5.pt", 5⟩).1 (by decide),
    (c3_resume_semantics [⟨"sv_0.5_100_p_5.pt", 5⟩] ⟨"sv_0.5_100_p_5.pt", 5⟩).2 (by decide)⟩

/-- C4 (code bug witness): the loop guard at line 305 is the strict
`current_epoch < num_epochs`, so resuming at exactly `num_epochs`
(here 5 of 5) trains no epoch at all, although the claim requires every
epoch from the resumed one through `num_epochs` inclusive to run; when
the guard does pass, the loop `range(current_epoch, num_epochs + 1)`
does include the final epoch (4 of 5 runs epochs 4 and 5), and a
resumed epoch beyond the total (6 of 5) runs nothing. -/
theorem c4_final_epoch_skipped :
    epochsRun 5 5 = [] ∧ epochsRun 4 5 = [4, 5] ∧ epochsRun 6 5 = [] := by
  decide

/-- C10: `UpdatedSingleViewModel.__init__` (lines 234-241) never
assigns `self.padding`, but `encode_sequence` reads it in both lookup
modes (lines 251 and 254), after attributes that do exist — so for
every mode string, `encode_sequence`, and therefore `forward`, fails
with an AttributeError on `padding`. -/
theorem c10_updated_model_padding_attribute_error (mode : String) :
    updated_encode_sequence mode = Except.error "AttributeError: padding" ∧
    updated_forward mode = Except.error "AttributeError: padding" := by
  have hes : updated_encode_sequence mode = Except.error "AttributeError: padding" := by
    by_cases h : mode = "p"
    · subst h
      rfl
    · rw [updated_encode_sequence, updatedEncodeSequenceReads, if_neg h]
      rfl
  refine ⟨hes, ?_⟩
  have hfwd : updated_forward mode = updated_encode_sequence mode := rfl
  rw [hfwd, hes]

/- ------------------------------------------------------------------
Geometry utilities (lines 15-20) and the tensor vocabulary
------------------------------------------------------------------- -/

/-- Embedding of `torch.acosh` on its domain, via the standard closed
form acosh x = log (x + sqrt (x^2 - 1)). -/
noncomputable def acosh (x : ℝ) : ℝ := Real.log (x + Real.sqrt (x ^ 2 - 1))

/-- Sum of squares of the entries of a vector (a row of a batch). -/
def sumSq (v : List ℝ) : ℝ := (v.map (fun x => x ^ 2)).sum

/-- Embedding of `t.norm(dim=1)` applied to one row: the Euclidean norm
of that row. -/
noncomputable def rowNorm (v : List ℝ) : ℝ := Real.sqrt (sumSq v)

/-- Embedding of `hyperbolic_distance` (lines 15-16 of the source):
`torch.acosh(1 + 2 * ((z1 - z2).norm(dim=1) ** 2) / (1 - (z1.norm(dim=1)
** 2)) / (1 - (z2.norm(dim=1) ** 2)))`.  All four tensor operations are
per-row (dim=1 norms of same-index rows), so the embedding is a zipWith
over the two row lists, producing one real per row index — a 1-D
result, not an all-pairs matrix.  The two divisions are kept in the
source's left-to-right order. -/
noncomputable def hyperbolic_distance (z1 z2 : List (List ℝ)) : List ℝ :=
  List.zipWith
    (fun a b =>
      acosh (1 + 2 * rowNorm (List.zipWith (fun x y => x - y) a b) ^ 2
        / (1 - rowNorm a ^ 2) / (1 - rowNorm b ^ 2)))
    z1 z2

/-- Sum of all entries of a matrix, embedding `t.sum()`. -/
def matSum (m : List (List ℝ)) : ℝ := (m.map List.sum).sum

/-- Mean of the entries of a 1-D tensor, embedding `t.mean()`
(sum divided by length; an empty tensor gives the junk value 0 where
the float program gives NaN). -/
noncomputable def listMean (l : List ℝ) : ℝ := l.sum / l.length

/-- Embedding of `torch.eye(n)`: the n-by-n identity matrix. -/
def eye (n : Nat) : List (List ℝ) :=
  (List.range n).map (fun i => (List.range n).map (fun j => if i = j then 1 else 0))

/-- Broadcast product of a length-n vector against an n-by-n matrix,
embedding the PyTorch broadcast `v * m` for v of shape (n,) and m of
shape (n, n): entry (i, j) is v_j * m_(i,j). -/
def broadcastRowVec (v : List ℝ) (m : List (List ℝ)) : List (List ℝ) :=
  m.map (fun row => List.zipWith (fun a b => a * b) v row)

/-- Broadcast product of a scalar against a matrix, embedding `c * m`
for a 0-D tensor c, as produced by geomloss.SamplesLoss on two unbatched
point clouds. -/
def smulMat (c : ℝ) (m : List (List ℝ)) : List (List ℝ) :=
  m.map (List.map (fun x => c * x))

/- ------------------------------------------------------------------
Contrastive losses (lines 22-42)
------------------------------------------------------------------- -/

/-- Embedding of `node_node_loss` (lines 22-25): with
`num_nodes = node_rep1.shape[0]` and `pos_mask = torch.eye(num_nodes)`,
returns `(hyperbolic_distance(node_rep1, node_rep2) * pos_mask).sum()
/ pos_mask.sum()` — the 1-D distance vector broadcast against the
identity mask, summed, divided by the mask sum. -/
noncomputable def node_node_loss (node_rep1 node_rep2 : List (List ℝ)) : ℝ :=
  matSum (broadcastRowVec (hyperbolic_distance node_rep1 node_rep2) (eye node_rep1.length))
    / matSum (eye node_rep1.length)

/-- Embedding of `seq_seq_loss` (lines 27-30): the external Sinkhorn
cost `sliced_wasserstein_distance` (lines 18-20) is a collaborator
returning one scalar per call, passed here as the abstract function
`swdF`; the scalar is broadcast against the identity mask of size
`batch_size = seq_rep1.shape[0]`, summed, divided by the mask sum. -/
noncomputable def seq_seq_loss (swdF : List (List ℝ) → List (List ℝ) → ℝ)
    (seq_rep1 seq_rep2 : List (List ℝ)) : ℝ :=
  matSum (smulMat (swdF seq_rep1 seq_rep2) (eye seq_rep1.length))
    / matSum (eye seq_rep1.length)

/-- Embedding of `torch.zeros((rows, cols))`. -/
def zerosMat (rows cols : Nat) : List (List ℝ) :=
  List.replicate rows (List.replicate cols 0)

/-- Embedding of the fancy-index assignment `pos_mask[row_idx][row] = 1.`
for one row: each index listed in `idxs` is set to 1. -/
def setIndices (row : List ℝ) (idxs : List Nat) : List ℝ :=
  idxs.foldl (fun r t => r.set t 1) row

/-- The positive mask of `node_seq_loss` before the final slice (lines
35-37): a zero matrix of shape (batch_size, num_nodes + 1) in which,
for every enumerated sequence, the columns of all its tokens are set
to 1. -/
def posMaskFull (batch_size num_nodes : Nat) (sequences : List (List Nat)) : List (List ℝ) :=
  (sequences.enum).foldl
    (fun m p => m.set p.1 (setIndices (m.getD p.1 []) p.2))
    (zerosMat batch_size (num_nodes + 1))

/-- The positive mask after `pos_mask = pos_mask[:, :-1]` (line 38):
the last (padding-sentinel) column is sliced off every row. -/
def posMask (batch_size num_nodes : Nat) (sequences : List (List Nat)) : List (List ℝ) :=
  (posMaskFull batch_size num_nodes sequences).map List.dropLast

/-- Embedding of `node_seq_loss` (lines 32-39): the scalar transport
cost broadcast against the positive mask, summed and divided by the
mask sum — with no validation of that denominator — plus the unmasked
mean of `hyperbolic_distance(seq_rep, node_rep)`. -/
noncomputable def node_seq_loss (swdF : List (List ℝ) → List (List ℝ) → ℝ)
    (node_rep seq_rep : List (List ℝ)) (sequences : List (List Nat)) : ℝ :=
  matSum (smulMat (swdF seq_rep node_rep) (posMask seq_rep.length node_rep.length sequences))
      / matSum (posMask seq_rep.length node_rep.length sequences)
    + listMean (hyperbolic_distance seq_rep node_rep)

/-- Embedding of `weighted_ns_loss` (lines 41-42): the scalar transport
cost broadcast against the supplied weight matrix, summed and divided
by the weight sum. -/
noncomputable def weighted_ns_loss (swdF : List (List ℝ) → List (List ℝ) → ℝ)
    (node_rep seq_rep : List (List ℝ)) (weights : List (List ℝ)) : ℝ :=
  matSum (smulMat (swdF seq_rep node_rep) weights) / matSum weights

/-- Modelled from the spec: the degenerate-batch validation that
section 7 of the specification requires of `node_seq_loss` but that is
missing from src/models/sv-hyper.py — a call whose positive mask sums
to zero must surface a fatal "degenerate batch" error instead of
dividing by the zero sum.  This spec-side variant exists only to be
compared with the code's `node_seq_loss`. -/
noncomputable def node_seq_loss_checked (swdF : List (List ℝ) → List (List ℝ) → ℝ)
    (node_rep seq_rep : List (List ℝ)) (sequences : List (List Nat)) : Except String ℝ :=
  letI := Classical.dec (matSum (posMask seq_rep.length node_rep.length sequences) = 0)
  if matSum (posMask seq_rep.length node_rep.length sequences) = 0 then
    Except.error "degenerate batch"
  else Except.ok (node_seq_loss swdF node_rep seq_rep sequences)

/- ------------------------------------------------------------------
Helper lemmas
------------------------------------------------------------------- -/

theorem zipWith_self {α β : Type} (f : α → α → β) (l : List α) :
    List.zipWith f l l = l.map (fun a => f a a) := by
  induction l with
  | nil => rfl
  | cons x xs ih => simp [List.zipWith, ih]

theorem sumSq_sub_self (a : List ℝ) :
    sumSq (List.zipWith (fun x y => x - y) a a) = 0 := by
  rw [zipWith_self]
  simp [sumSq]

theorem acosh_one : acosh 1 = 0 := by
  norm_num [acosh]

/-- The per-row hyperbolic distance of identical batches is zero in
every entry. -/
theorem hyperbolic_distance_self (r : List (List ℝ)) :
    hyperbolic_distance r r = List.replicate r.length 0 := by
  rw [hyperbolic_distance, zipWith_self]
  have h : ∀ a : List ℝ,
      acosh (1 + 2 * rowNorm (List.zipWith (fun x y => x - y) a a) ^ 2
        / (1 - rowNorm a ^ 2) / (1 - rowNorm a ^ 2)) = 0 := by
    intro a
    rw [rowNorm, sumSq_sub_self, Real.sqrt_zero]
    norm_num [acosh_one]
  simp only [h]
  simp [List.eq_replicate_iff]

theorem sum_zipWith_mul_replicate_zero :
    ∀ (n : Nat) (row : List ℝ),
      (List.zipWith (fun a b => a * b) (List.replicate n (0 : ℝ)) row).sum = 0 := by
  intro n
  induction n with
  | zero => intro row; simp
  | succ k ih =>
    intro row
    cases row with
    | nil => simp
    | cons x xs => simp [List.replicate_succ, ih xs]

theorem matSum_broadcast_replicate_zero (n : Nat) (m : List (List ℝ)) :
    matSum (broadcastRowVec (List.replicate n 0) m) = 0 := by
  rw [matSum, broadcastRowVec, List.map_map]
  have h : (List.sum ∘ fun row => List.zipWith (fun a b => a * b) (List.replicate n (0 : ℝ)) row)
      = fun _ => (0 : ℝ) := by
    funext row
    exact sum_zipWith_mul_replicate_zero n row
  rw [h]
  simp

theorem sum_map_mul_left (c : ℝ) (l : List ℝ) :
    (l.map (fun x => c * x)).sum = c * l.sum := by
  induction l with
  | nil => simp
  | cons x xs ih => simp [ih, mul_add]

/-- A scalar broadcast against a matrix sums to the scalar times the
matrix sum. -/
theorem matSum_smulMat (c : ℝ) (m : List (List ℝ)) :
    matSum (smulMat c m) = c * matSum m := by
  rw [matSum, smulMat, List.map_map]
  have h : (List.sum ∘ List.map fun x => c * x) = fun row : List ℝ => c * row.sum := by
    funext row
    exact sum_map_mul_left c row
  rw [h, matSum, ← sum_map_mul_left c, List.map_map]
  rfl

theorem getD_zipWith {α β γ : Type} (f : α → β → γ) (d1 : α) (d2 : β) (d : γ) :
    ∀ (l1 : List α) (l2 : List β) (i : Nat), i < l1.length → i < l2.length →
      (List.zipWith f l1 l2).getD i d = f (l1.getD i d1) (l2.getD i d2) := by
  intro l1
  induction l1 with
  | nil => intro l2 i h1 _; simp at h1
  | cons a as ih =>
    intro l2 i h1 h2
    cases l2 with
    | nil => simp at h2
    | cons b bs =>
      cases i with
      | zero => rfl
      | succ k =>
        simp only [List.zipWith_cons_cons, List.getD_cons_succ]
        exact ih bs k (by simpa using h1) (by simpa using h2)

/-- The source's left-to-right double division equals the spec's single
division by the product of the two denominators. -/
theorem hyperbolic_entry_div_div (a b : List ℝ) :
    acosh (1 + 2 * rowNorm (List.zipWith (fun x y => x - y) a b) ^ 2
        / (1 - rowNorm a ^ 2) / (1 - rowNorm b ^ 2))
      = acosh (1 + 2 * rowNorm (List.zipWith (fun x y => x - y) a b) ^ 2
        / ((1 - rowNorm a ^ 2) * (1 - rowNorm b ^ 2))) := by
  rw [div_div]

/- ------------------------------------------------------------------
Claim theorems on the geometry and the losses
------------------------------------------------------------------- -/

/-- C5 (counterexample): for the batch with one node, representation
`[[0]]`, one sequence `[[1]]` consisting solely of the padding sentinel
(= num_nodes = 1), the positive mask of `node_seq_loss` sums to zero;
the spec-modelled checked variant surfaces the fatal "degenerate batch"
error there, but the code's `node_seq_loss` surfaces nothing: it
divides by the zero sum and returns a plain value (0 under the
exact-arithmetic division convention; NaN in the float program) —
refuting the claim that the program surfaces a distinguishable error. -/
theorem c5_degenerate_batch_not_surfaced :
    matSum (posMask 1 1 [[1]]) = 0 ∧
    node_seq_loss_checked (fun _ _ => 5) [[(0 : ℝ)]] [[(0 : ℝ)]] [[1]]
      = Except.error "degenerate batch" ∧
    node_seq_loss (fun _ _ => 5) [[(0 : ℝ)]] [[(0 : ℝ)]] [[1]] = 0 := by
  have hmask : posMask 1 1 [[1]] = [[(0 : ℝ)]] := rfl
  have hsum : matSum (posMask 1 1 [[1]]) = 0 := by
    rw [hmask]
    norm_num [matSum]
  refine ⟨hsum, ?_, ?_⟩
  · have hsum' : matSum (posMask (List.length ([[(0 : ℝ)]] : List (List ℝ)))
        (List.length ([[(0 : ℝ)]] : List (List ℝ))) [[1]]) = 0 := hsum
    simp only [node_seq_loss_checked]
    rw [if_pos hsum']
  · have h1 : node_seq_loss (fun _ _ => 5) [[(0 : ℝ)]] [[(0 : ℝ)]] [[1]]
        = matSum (smulMat 5 (posMask 1 1 [[1]])) / matSum (posMask 1 1 [[1]])
          + listMean (hyperbolic_distance [[(0 : ℝ)]] [[(0 : ℝ)]]) := rfl
    rw [h1, matSum_smulMat, hsum, mul_zero, zero_div, hyperbolic_distance_self]
    simp [listMean]

/-- C5 (amended): `node_seq_loss` performs no zero-denominator
validation: on any call whose positive mask sums to zero it divides
through, the masked transport term collapses to the division-by-zero
junk value, and the call returns the unmasked mean hyperbolic term
(the float program returns NaN rather than raising). -/
theorem c5_degenerate_batch_divides_through
    (swdF : List (List ℝ) → List (List ℝ) → ℝ)
    (node_rep seq_rep : List (List ℝ)) (sequences : List (List Nat))
    (h : matSum (posMask seq_rep.length node_rep.length sequences) = 0) :
    node_seq_loss swdF node_rep seq_rep sequences
      = listMean (hyperbolic_distance seq_rep node_rep) := by
  rw [node_seq_loss, matSum_smulMat, h, mul_zero, zero_div, zero_add]

/-- Witness for the amended C5 at the concrete degenerate batch. -/
theorem c5_degenerate_batch_divides_through_witness :
    node_seq_loss (fun _ _ => (5 : ℝ)) [[(0 : ℝ)]] [[(0 : ℝ)]] [[1]]
      = listMean (hyperbolic_distance [[(0 : ℝ)]] [[(0 : ℝ)]]) :=
  c5_degenerate_batch_divides_through (fun _ _ => 5) [[(0 : ℝ)]] [[(0 : ℝ)]] [[1]]
    (by
      have h : matSum (posMask 1 1 [[1]]) = 0 := by
        rw [show posMask 1 1 [[1]] = [[(0 : ℝ)]] from rfl]
        norm_num [matSum]
      exact h)

/-- C6: for equal-shape batches whose rows lie strictly inside the unit
ball, `hyperbolic_distance` returns a 1-D sequence with one entry per
row index (length equal to the batch size, never an all-pairs matrix),
and its i-th entry is acosh(1 + 2*d^2 / ((1 - na^2) * (1 - nb^2)))
where d is the norm of the difference of the i-th rows and na, nb the
norms of the i-th rows themselves. -/
theorem c6_hyperbolic_distance_pairwise (z1 z2 : List (List ℝ))
    (hlen : z1.length = z2.length)
    (_h1 : ∀ v ∈ z1, rowNorm v < 1) (_h2 : ∀ v ∈ z2, rowNorm v < 1) :
    (hyperbolic_distance z1 z2).length = z1.length ∧
    ∀ i, i < z1.length →
      (hyperbolic_distance z1 z2).getD i 0 =
        acosh (1 + 2 * rowNorm (List.zipWith (fun x y => x - y)
            (z1.getD i []) (z2.getD i [])) ^ 2
          / ((1 - rowNorm (z1.getD i []) ^ 2) * (1 - rowNorm (z2.getD i []) ^ 2))) := by
  constructor
  · simp [hyperbolic_distance, hlen]
  · intro i hi
    rw [hyperbolic_distance,
      getD_zipWith _ [] [] 0 z1 z2 i hi (hlen ▸ hi)]
    exact hyperbolic_entry_div_div (z1.getD i []) (z2.getD i [])

/-- Witness for C6 at the concrete one-row batches [[0]], [[0]]. -/
theorem c6_hyperbolic_distance_pairwise_witness :
    (hyperbolic_distance [[(0 : ℝ)]] [[(0 : ℝ)]]).length = 1 ∧
    (hyperbolic_distance [[(0 : ℝ)]] [[(0 : ℝ)]]).getD 0 0 =
      acosh (1 + 2 * rowNorm (List.zipWith (fun x y => x - y)
          (List.getD [[(0 : ℝ)]] 0 []) (List.getD [[(0 : ℝ)]] 0 [])) ^ 2
        / ((1 - rowNorm (List.getD [[(0 : ℝ)]] 0 []) ^ 2)
          * (1 - rowNorm (List.getD [[(0 : ℝ)]] 0 []) ^ 2))) := by
  have h := c6_hyperbolic_distance_pairwise [[(0 : ℝ)]] [[(0 : ℝ)]] rfl
    (by
      intro v hv
      simp only [List.mem_singleton] at hv
      subst hv
      rw [rowNorm]
      norm_num [sumSq, Real.sqrt_zero])
    (by
      intro v hv
      simp only [List.mem_singleton] at hv
      subst hv
      rw [rowNorm]
      norm_num [sumSq, Real.sqrt_zero])
  exact ⟨h.1, h.2 0 (by norm_num)⟩

/-- C7: for any representation whose rows lie strictly inside the unit
ball, `node_node_loss` of the same input as both views is zero: the
per-row self-distances all vanish, so the identity-masked sum is zero
whatever the mask sum. -/
theorem c7_node_node_loss_self_zero (r : List (List ℝ))
    (_h : ∀ v ∈ r, rowNorm v < 1) :
    node_node_loss r r = 0 := by
  rw [node_node_loss, hyperbolic_distance_self, matSum_broadcast_replicate_zero, zero_div]

/-- Witness for C7 at the concrete one-row representation [[0]]. -/
theorem c7_node_node_loss_self_zero_witness :
    node_node_loss [[(0 : ℝ)]] [[(0 : ℝ)]] = 0 :=
  c7_node_node_loss_self_zero [[(0 : ℝ)]]
    (by
      intro v hv
      simp only [List.mem_singleton] at hv
      subst hv
      rw [rowNorm]
      norm_num [sumSq, Real.sqrt_zero])

/-- C8: the positive mask of `node_seq_loss` at the spec's concrete
test: for sequences [[0, 1], [1, 2]] with 3 nodes (padding sentinel 3),
the (2, 4) pre-slice mask marks exactly (0,0), (0,1), (1,1), (1,2) and
nothing else, and slicing off the last column yields the (2, 3) mask. -/
theorem c8_node_seq_loss_mask_construction :
    posMaskFull 2 3 [[0, 1], [1, 2]] = [[1, 1, 0, 0], [0, 1, 1, 0]] ∧
    posMask 2 3 [[0, 1], [1, 2]] = [[1, 1, 0], [0, 1, 1]] :=
  ⟨rfl, rfl⟩

/-- C9: the weights supplied to `weighted_ns_loss` never influence its
result: because the external transport cost is a single scalar
broadcast against the weight matrix, the weighted sum divided by the
weight sum cancels, and for any two nonnegative weight matrices of
strictly positive sum the loss equals the bare scalar cost of the
(sequence, node) pair under either weighting. -/
theorem c9_weighted_ns_loss_ignores_weights
    (swdF : List (List ℝ) → List (List ℝ) → ℝ) (n s w1 w2 : List (List ℝ))
    (_h1 : ∀ row ∈ w1, ∀ x ∈ row, (0 : ℝ) ≤ x) (h1s : 0 < matSum w1)
    (_h2 : ∀ row ∈ w2, ∀ x ∈ row, (0 : ℝ) ≤ x) (h2s : 0 < matSum w2) :
    weighted_ns_loss swdF n s w1 = swdF s n ∧
    weighted_ns_loss swdF n s w2 = swdF s n ∧
    weighted_ns_loss swdF n s w1 = weighted_ns_loss swdF n s w2 := by
  have e : ∀ w : List (List ℝ), 0 < matSum w → weighted_ns_loss swdF n s w = swdF s n := by
    intro w hw
    rw [weighted_ns_loss, matSum_smulMat, mul_div_cancel_right₀ _ (ne_of_gt hw)]
  exact ⟨e w1 h1s, e w2 h2s, by rw [e w1 h1s, e w2 h2s]⟩

/-- Witness for C9 at concrete weights [[1]] and [[2, 1]]. -/
theorem c9_weighted_ns_loss_ignores_weights_witness :
    weighted_ns_loss (fun _ _ => (5 : ℝ)) [[(0 : ℝ)]] [[(0 : ℝ)]] [[1]] = 5 ∧
    weighted_ns_loss (fun _ _ => (5 : ℝ)) [[(0 : ℝ)]] [[(0 : ℝ)]] [[2, 1]] = 5 ∧
    weighted_ns_loss (fun _ _ => (5 : ℝ)) [[(0 : ℝ)]] [[(0 : ℝ)]] [[1]]
      = weighted_ns_loss (fun _ _ => (5 : ℝ)) [[(0 : ℝ)]] [[(0 : ℝ)]] [[2, 1]] :=
  c9_weighted_ns_loss_ignores_weights (fun _ _ => 5) [[(0 : ℝ)]] [[(0 : ℝ)]] [[1]] [[2, 1]]
    (by
      intro row hr x hx
      simp only [List.mem_singleton] at hr
      subst hr
      simp only [List.mem_singleton] at hx
      subst hx
      norm_num)
    (by norm_num [matSum])
    (by
      intro row hr x hx
      simp only [List.mem_singleton] at hr
      subst hr
      simp at hx
      rcases hx with rfl | rfl <;> norm_num)
    (by norm_num [matSum])
